import Mathlib

/-!
Shallow embedding of the decision / risk-management engine of the
degen-trader trading service (`tradingService.ts`) and proofs about it.

Numbers: the source uses JS numbers (IEEE doubles) and `BigInt`.  We model
JS numbers as `ℚ` (exact arithmetic; the two spots where the source takes a
real-valued root, `Math.sqrt` and `** 1.5`, are modelled over `ℝ` with
`Real.sqrt` / real exponentiation and bridged back to decidable rational
comparisons by proven monotonicity lemmas).  `BigInt` balances are modelled
as `ℤ`; `BigInt` division truncates toward zero, which on the non-negative
balances used here agrees with `Int` division.

JS truthiness: a test `if (x)` on a number is false exactly for `0` (and
for a missing value); we model optional numbers as `Option ℚ` and make the
`0`-falsy checks explicit.
-/

namespace DegenTrader

/-- `calculateEMA(prices, period)` from `tradingService.ts`.
If `prices.length < period` the source returns `prices[prices.length - 1]`
(the last element; on the empty list the source yields `undefined`, which we
default to `0` — all claims about this function assume a non-empty series).
Otherwise it seeds with the simple average of the first `period` elements
and folds the classic EMA step with multiplier `2/(period+1)` over the
remaining elements. -/
def calculateEMA (prices : List ℚ) (period : ℕ) : ℚ :=
  if prices.length < period then
    prices.getLastD 0
  else
    let multiplier : ℚ := 2 / ((period : ℚ) + 1)
    let seed : ℚ := ((prices.take period).foldl (· + ·) 0) / (period : ℚ)
    (prices.drop period).foldl (fun ema p => (p - ema) * multiplier + ema) seed

/-- One step of the Wilder smoothing loop of `calculateRSI`: given the
running `(avgGain, avgLoss)` and the next price change, produce the new
smoothed averages exactly as the source's loop body does. -/
def rsiStep (period : ℕ) (acc : ℚ × ℚ) (change : ℚ) : ℚ × ℚ :=
  if 0 ≤ change then
    ((acc.1 * ((period : ℚ) - 1) + change) / (period : ℚ),
     (acc.2 * ((period : ℚ) - 1)) / (period : ℚ))
  else
    ((acc.1 * ((period : ℚ) - 1)) / (period : ℚ),
     (acc.2 * ((period : ℚ) - 1) - change) / (period : ℚ))

/-- Successive price changes `prices[i] - prices[i-1]`. -/
def priceChanges (prices : List ℚ) : List ℚ :=
  List.zipWith (fun prev next => next - prev) prices (prices.drop 1)

/-- `calculateRSI(prices, period)` from `tradingService.ts`.
The source returns `50` when `prices.length < period + 1`; otherwise it
accumulates initial average gain/loss over the first `period` changes,
runs the Wilder smoothing loop over the remaining changes, and finally
computes `rs = avgGain / avgLoss` **without guarding `avgLoss == 0`**.
The embedding makes that unguarded division explicit by returning `none`
exactly when the source would divide by zero. -/
def calculateRSI (prices : List ℚ) (period : ℕ) : Option ℚ :=
  if prices.length < period + 1 then
    some 50
  else
    let changes := priceChanges prices
    let initial := changes.take period
    let sums : ℚ × ℚ :=
      initial.foldl
        (fun acc c => if 0 ≤ c then (acc.1 + c, acc.2) else (acc.1, acc.2 - c))
        (0, 0)
    let start : ℚ × ℚ := (sums.1 / (period : ℚ), sums.2 / (period : ℚ))
    let final := (changes.drop period).foldl (rsiStep period) start
    if final.2 = 0 then
      none
    else
      some (100 - 100 / (1 + final.1 / final.2))

/-! ## Position monitor (`monitorToken`, `setTrailingStop`, `monitorTrailingStop`) -/

/-- Risk-limit subtree of `TradingConfig` (`types.ts`). -/
structure RiskLimits where
  maxPositionSize : ℚ
  maxDrawdown : ℚ
  stopLossPercentage : ℚ
  takeProfitPercentage : ℚ
deriving DecidableEq

/-- The MACD triple produced by `calculateMACD`, consumed by the momentum
step of `monitorToken`. -/
structure Macd where
  value : ℚ
  signal : ℚ
  histogram : ℚ
deriving DecidableEq

/-- The optional price fields of the `options` argument of `monitorToken`. -/
structure MonitorOptions where
  initialPrice : Option ℚ
  stopLossPrice : Option ℚ
  takeProfitPrice : Option ℚ
deriving DecidableEq

/-- The trailing-stop record stored by `setTrailingStop` under
`trailing_stop:<token>` and read back by `monitorTrailingStop`. -/
structure TrailingStop where
  highestPrice : ℚ
  activationPrice : ℚ
  trailingStopPercentage : ℚ
  amount : ℤ
deriving DecidableEq

/-- An externally visible action emitted during a monitoring tick:
either a sell signal (`createSellSignal(token, amount, reason)`) or the
creation of a trailing-stop record (`setTrailingStop`). -/
inductive MonitorAction where
  | sell (amount : ℤ) (reason : String)
  | trail (record : TrailingStop)
deriving DecidableEq

/-- `setTrailingStop(tokenAddress, activationPrice, amount)`: the stored
record anchors `highestPrice` at the activation price and uses the
hard-coded `trailingStopPercentage = 5`. -/
def setTrailingStop (activationPrice : ℚ) (amount : ℤ) : TrailingStop :=
  { highestPrice := activationPrice
    activationPrice := activationPrice
    trailingStopPercentage := 5
    amount := amount }

/-- JS `a || b` on an optional number: `a` wins unless it is missing or `0`
(falsy).  Used for `options.stopLossPrice || (options.initialPrice ? … : null)`. -/
def jsOrNum (a b : Option ℚ) : Option ℚ :=
  match a with
  | some x => if x = 0 then b else some x
  | none => b

/-- JS `x ? e : null` on an optional number `x` (missing and `0` are falsy). -/
def jsIfNum (x : Option ℚ) (f : ℚ → ℚ) : Option ℚ :=
  match x with
  | some v => if v = 0 then none else some (f v)
  | none => none

/-- JS truthiness test `p && price ≤ p` / `p && price ≥ p` on an optional
threshold `p` (missing and `0` are falsy). -/
def thresholdHit (p : Option ℚ) (test : ℚ → Prop) [∀ x, Decidable (test x)] : Prop :=
  match p with
  | some x => ¬ x = 0 ∧ test x
  | none => False

instance (p : Option ℚ) (test : ℚ → Prop) [∀ x, Decidable (test x)] :
    Decidable (thresholdHit p test) := by
  unfold thresholdHit; cases p <;> infer_instance

/-- One tick of `monitorToken` (`tradingService.ts`), as the list of actions
it emits.  `balance` is the `BigInt` token balance, `price` the fetched
market price (`0` models the falsy "no price" case, after which the source
returns), `tech` the technical signals used by the momentum step.
Mirrors the source's order: no-position guard, no-price guard, stop loss
(full exit, terminal), take profit (half exit + trailing stop, terminal),
then momentum (75% exit) when in profit. -/
def monitorToken (cfg : RiskLimits) (opts : MonitorOptions) (balance : ℤ)
    (price : ℚ) (tech : Option Macd) : List MonitorAction :=
  if balance ≤ 0 then []
  else if price = 0 then []
  else
    let priceChangePercent : ℚ :=
      match opts.initialPrice with
      | some ip => if ip = 0 then 0 else (price - ip) / ip * 100
      | none => 0
    let stopLossPrice : Option ℚ :=
      jsOrNum opts.stopLossPrice
        (jsIfNum opts.initialPrice (fun ip => ip * (1 - cfg.stopLossPercentage / 100)))
    if thresholdHit stopLossPrice (fun s => price ≤ s) then
      [.sell balance "Stop loss triggered"]
    else
      let takeProfitPrice : Option ℚ :=
        jsOrNum opts.takeProfitPrice
          (jsIfNum opts.initialPrice (fun ip => ip * (1 + cfg.takeProfitPercentage / 100)))
      if thresholdHit takeProfitPrice (fun t => t ≤ price) then
        [.sell (balance / 2) "Take profit - selling half position",
         .trail (setTrailingStop price (balance / 2))]
      else
        if 0 < priceChangePercent then
          match tech with
          | some m =>
            if m.histogram < 0 ∧ m.value < m.signal then
              [.sell (balance * 3 / 4) "Negative momentum while in profit"]
            else []
          | none => []
        else []

/-- One tick of `monitorTrailingStop` (`tradingService.ts`): given the
stored record (if any), the current balance and price, returns the emitted
actions together with the record state after the tick (`none` = deleted).
Mirrors the source's order: missing-record guard, no-position guard
(deletes the record), no-price guard, highest-price update, then the
trailing-stop trigger `price ≤ highestPrice × (1 − pct/100)` which sells
the tracked amount and deletes the record. -/
def monitorTrailingStop (ts : Option TrailingStop) (balance : ℤ) (price : ℚ) :
    List MonitorAction × Option TrailingStop :=
  match ts with
  | none => ([], none)
  | some t =>
    if balance ≤ 0 then ([], none)
    else if price = 0 then ([], some t)
    else
      let t2 := if t.highestPrice < price then { t with highestPrice := price } else t
      let stopPrice := t2.highestPrice * (1 - t2.trailingStopPercentage / 100)
      if price ≤ stopPrice then
        ([.sell t2.amount "Trailing stop triggered"], none)
      else
        ([], some t2)

/-- C1: on a monitoring tick with a positive balance, a fetched price, no
explicit stop-loss override and a known entry price, if
`price ≤ entryPrice × (1 − stopLossPercentage/100)` then `monitorToken`
emits exactly one sell — of the entire balance, with reason
"Stop loss triggered" — and nothing else (the take-profit and momentum
steps are not reached). -/
theorem monitorToken_stop_loss (cfg : RiskLimits) (opts : MonitorOptions)
    (balance : ℤ) (price ip : ℚ) (tech : Option Macd)
    (hb : 0 < balance) (hp : 0 < price)
    (hsl : opts.stopLossPrice = none) (hip : opts.initialPrice = some ip)
    (hip0 : ¬ ip = 0)
    (htrig : price ≤ ip * (1 - cfg.stopLossPercentage / 100)) :
    monitorToken cfg opts balance price tech = [.sell balance "Stop loss triggered"] := by
  have hs0 : ¬ ip * (1 - cfg.stopLossPercentage / 100) = 0 := by
    intro h0
    rw [h0] at htrig
    exact absurd (lt_of_lt_of_le hp htrig) (lt_irrefl 0)
  rw [monitorToken.eq_def, hsl, hip]
  simp only [jsOrNum, jsIfNum]
  rw [if_neg (not_le.mpr hb), if_neg (ne_of_gt hp), if_neg hip0]
  simp only [thresholdHit]
  rw [if_pos ⟨hs0, htrig⟩]

/-- C1 witness: entry price 100, stop-loss percentage 5, a tick at price 94
on a balance of 7 emits the single full-exit stop-loss sell. -/
theorem monitorToken_stop_loss_witness :
    (0 : ℤ) < 7 ∧ (0 : ℚ) < 94 ∧ (94 : ℚ) ≤ 100 * (1 - 5 / 100) ∧
      monitorToken ⟨1/5, 1/10, 5, 20⟩ ⟨some 100, none, none⟩ 7 94 none =
        [.sell 7 "Stop loss triggered"] :=
  ⟨by norm_num, by norm_num, by norm_num,
   monitorToken_stop_loss ⟨1/5, 1/10, 5, 20⟩ ⟨some 100, none, none⟩ 7 94 100 none
     (by norm_num) (by norm_num) rfl rfl (by norm_num) (by norm_num)⟩

/-- C2 (counterexample): the claim says the take-profit step sells
*exactly half* the current balance; on an odd balance of `3` (entry 100,
take-profit percentage 20, price 121) the source's `BigInt` division sells
`3 / 2 = 1` unit, and `2 × 1 ≠ 3`, so the emitted amount is not half the
balance (and the trailing record tracks the same floored amount `1`, not
the remaining `2`). -/
theorem monitorToken_take_profit_not_exact_half :
    monitorToken ⟨1/5, 1/10, 5, 20⟩ ⟨some 100, none, none⟩ 3 121 none =
        [.sell 1 "Take profit - selling half position",
         .trail { highestPrice := 121, activationPrice := 121,
                  trailingStopPercentage := 5, amount := 1 }] ∧
      ¬ (2 * (1 : ℤ) = 3) := by
  constructor
  · norm_num [monitorToken, jsOrNum, jsIfNum, thresholdHit, setTrailingStop]
  · decide

/-- C2 (amended): on a tick with positive balance and price, no explicit
price overrides, a known entry price, the stop-loss condition strictly not
met, and `price ≥ entryPrice × (1 + takeProfitPercentage/100)` (with a
positive take-profit percentage), `monitorToken` emits exactly a sell of
`⌊balance / 2⌋` (integer `BigInt` division — half only up to rounding)
with the partial-take-profit reason, plus a trailing-stop record anchored
at the current price with trailing percentage 5 tracking that same floored
amount, and does not evaluate the momentum step. -/
theorem monitorToken_take_profit (cfg : RiskLimits) (opts : MonitorOptions)
    (balance : ℤ) (price ip : ℚ) (tech : Option Macd)
    (hb : 0 < balance) (hp : 0 < price)
    (hsl : opts.stopLossPrice = none) (htp : opts.takeProfitPrice = none)
    (hip : opts.initialPrice = some ip) (hip0 : 0 < ip)
    (hnosl : ip * (1 - cfg.stopLossPercentage / 100) < price)
    (htpp : 0 < cfg.takeProfitPercentage)
    (htrig : ip * (1 + cfg.takeProfitPercentage / 100) ≤ price) :
    monitorToken cfg opts balance price tech =
      [.sell (balance / 2) "Take profit - selling half position",
       .trail { highestPrice := price, activationPrice := price,
                trailingStopPercentage := 5, amount := balance / 2 }] := by
  have ht0 : ¬ ip * (1 + cfg.takeProfitPercentage / 100) = 0 := by
    have : 0 < ip * (1 + cfg.takeProfitPercentage / 100) := by positivity
    exact ne_of_gt this
  rw [monitorToken.eq_def, hsl, htp, hip]
  simp only [jsOrNum, jsIfNum]
  rw [if_neg (not_le.mpr hb), if_neg (ne_of_gt hp), if_neg (ne_of_gt hip0),
    if_neg (ne_of_gt hip0)]
  simp only [thresholdHit]
  rw [if_neg (fun h : ¬_ = (0 : ℚ) ∧ price ≤ _ => absurd h.2 (not_le.mpr hnosl)),
    if_pos ⟨ht0, htrig⟩]
  simp only [setTrailingStop]

/-- C2 witness: entry 100, take-profit percentage 20, price 121, balance 4:
sells `4 / 2 = 2` and anchors the trailing stop at 121 over amount 2. -/
theorem monitorToken_take_profit_witness :
    (0 : ℤ) < 4 ∧ (100 : ℚ) * (1 - 5 / 100) < 121 ∧
      (100 : ℚ) * (1 + 20 / 100) ≤ 121 ∧
      monitorToken ⟨1/5, 1/10, 5, 20⟩ ⟨some 100, none, none⟩ 4 121 none =
        [.sell 2 "Take profit - selling half position",
         .trail { highestPrice := 121, activationPrice := 121,
                  trailingStopPercentage := 5, amount := 2 }] :=
  ⟨by norm_num, by norm_num, by norm_num, by
    have h := monitorToken_take_profit ⟨1/5, 1/10, 5, 20⟩ ⟨some 100, none, none⟩
      4 121 100 none (by norm_num) (by norm_num) rfl rfl rfl (by norm_num)
      (by norm_num) (by norm_num) (by norm_num)
    rw [h]
    norm_num⟩

/-- C3: on a trailing-stop tick with a stored record, positive balance and
a fetched price, the tick first raises the stored `highestPrice` to
`max(highestPrice, price)` and then triggers — emitting exactly one sell of
the tracked amount and deleting the record — if and only if
`price ≤ max(highestPrice, price) × (1 − trailingStopPercentage/100)`;
otherwise it emits nothing and keeps the record with the updated high. -/
theorem monitorTrailingStop_spec (t : TrailingStop) (balance : ℤ) (price : ℚ)
    (hb : 0 < balance) (hp : 0 < price) :
    monitorTrailingStop (some t) balance price =
      if price ≤ max t.highestPrice price * (1 - t.trailingStopPercentage / 100) then
        ([.sell t.amount "Trailing stop triggered"], none)
      else
        ([], some { t with highestPrice := max t.highestPrice price }) := by
  rw [monitorTrailingStop]
  rw [if_neg (not_le.mpr hb), if_neg (ne_of_gt hp)]
  by_cases hup : t.highestPrice < price
  · simp only [if_pos hup]
    rw [max_eq_right (le_of_lt hup)]
  · simp only [if_neg hup]
    rw [max_eq_left (le_of_not_lt hup)]

/-- C3 witness: anchored high 121, trailing percentage 5: a tick at price
114.95 (exactly `121 × 0.95`) sells the tracked amount 10 and deletes the
record; a tick at 115 emits nothing and keeps the record. -/
theorem monitorTrailingStop_spec_witness :
    (0 : ℤ) < 3 ∧ (0 : ℚ) < 2299 / 20 ∧
      monitorTrailingStop (some ⟨121, 121, 5, 10⟩) 3 (2299 / 20) =
        ([.sell 10 "Trailing stop triggered"], none) ∧
      monitorTrailingStop (some ⟨121, 121, 5, 10⟩) 3 115 =
        ([], some ⟨121, 121, 5, 10⟩) :=
  ⟨by norm_num, by norm_num, by
    have h := monitorTrailingStop_spec ⟨121, 121, 5, 10⟩ 3 (2299 / 20)
      (by norm_num) (by norm_num)
    rw [h]
    norm_num, by
    have h := monitorTrailingStop_spec ⟨121, 121, 5, 10⟩ 3 115
      (by norm_num) (by norm_num)
    rw [h]
    norm_num⟩

/-! ## Risk sizer (`calculateOptimalBuyAmount`) -/

/-- `calculateOptimalBuyAmount` (`tradingService.ts`), as a pure function of
the data it reads: the wallet balance, the portfolio drawdown, the config's
`maxDrawdown` / `maxPositionSize`, the token's score, the token's optional
technical volatility (the source tests it with JS truthiness, so a present
`0` skips the adjustment), the assessed market condition (only "bearish"
matters), and the token's liquidity.  `minTradeSize` is the source's
hard-coded `0.05` and the liquidity cap is `liquidity * 0.02`. -/
def calculateOptimalBuyAmount (walletBalance drawdown maxDrawdown : ℚ)
    (score maxPositionSize : ℚ) (volatility : Option ℚ) (bearish : Bool)
    (liquidity : ℚ) : ℚ :=
  let availableCapital := walletBalance * (1 - drawdown / maxDrawdown)
  if availableCapital ≤ 0 then 0
  else
    let basePercentage := min (score / 200) maxPositionSize
    let afterVolatility :=
      match volatility with
      | some v => if v = 0 then basePercentage else basePercentage * max (1 / 2) (1 - v)
      | none => basePercentage
    let adjustedPercentage := if bearish then afterVolatility * (1 / 2) else afterVolatility
    let rawPositionSize := availableCapital * adjustedPercentage
    let maxLiquidityImpact := liquidity * (2 / 100)
    let minTradeSize : ℚ := 1 / 20
    max minTradeSize (min rawPositionSize maxLiquidityImpact)

/-- C4 (counterexample): the claim says the result always lies in
`[minTradeSize, liquidity × 0.02]` when `availableCapital > 0`; with
liquidity `1` the cap is `0.02 < 0.05 = minTradeSize`, and the outer
`max(minTradeSize, …)` pushes the result to `0.05`, above the cap
(wallet 100, drawdown 0, maxDrawdown 0.1, score 60, no volatility,
neutral market). -/
theorem calculateOptimalBuyAmount_exceeds_liquidity_cap :
    (0 : ℚ) < 100 * (1 - 0 / (1 / 10)) ∧
      calculateOptimalBuyAmount 100 0 (1 / 10) 60 (1 / 5) none false 1 = 1 / 20 ∧
      ¬ calculateOptimalBuyAmount 100 0 (1 / 10) 60 (1 / 5) none false 1 ≤ 1 * (2 / 100) := by
  refine ⟨by norm_num, ?_, ?_⟩ <;> norm_num [calculateOptimalBuyAmount]

/-- C4 (amended): with a non-negative wallet balance and a positive
`maxDrawdown`, `calculateOptimalBuyAmount` returns exactly `0` whenever
`drawdown ≥ maxDrawdown` (then `availableCapital ≤ 0`), and whenever
`availableCapital > 0` its result lies within
`[minTradeSize, max(minTradeSize, liquidity × 0.02)]` — the liquidity cap
only binds when it is at least the fixed minimum trade size — for every
score, volatility and market-condition input. -/
theorem calculateOptimalBuyAmount_spec (walletBalance drawdown maxDrawdown : ℚ)
    (score maxPositionSize : ℚ) (volatility : Option ℚ) (bearish : Bool)
    (liquidity : ℚ) (hwb : 0 ≤ walletBalance) (hmd : 0 < maxDrawdown) :
    (maxDrawdown ≤ drawdown →
      calculateOptimalBuyAmount walletBalance drawdown maxDrawdown score
        maxPositionSize volatility bearish liquidity = 0) ∧
    (0 < walletBalance * (1 - drawdown / maxDrawdown) →
      1 / 20 ≤ calculateOptimalBuyAmount walletBalance drawdown maxDrawdown score
          maxPositionSize volatility bearish liquidity ∧
        calculateOptimalBuyAmount walletBalance drawdown maxDrawdown score
          maxPositionSize volatility bearish liquidity ≤
          max (1 / 20) (liquidity * (2 / 100))) := by
  constructor
  · intro hdd
    have hcap : walletBalance * (1 - drawdown / maxDrawdown) ≤ 0 := by
      have h1 : 1 - drawdown / maxDrawdown ≤ 0 := by
        rw [sub_nonpos]
        exact (one_le_div hmd).mpr hdd
      exact mul_nonpos_iff.mpr (Or.inl ⟨hwb, h1⟩)
    rw [calculateOptimalBuyAmount, if_pos hcap]
  · intro hcap
    rw [calculateOptimalBuyAmount.eq_def, if_neg (not_le.mpr hcap)]
    refine ⟨le_max_left _ _, ?_⟩
    exact max_le (le_max_left _ _)
      (le_trans (min_le_right _ _) (le_max_right _ _))

/-- C4 witness: instantiates `calculateOptimalBuyAmount_spec` on both
branches — at drawdown 0.2 ≥ maxDrawdown 0.1 the result is 0; at drawdown 0
with liquidity 100000 the result is within the amended interval. -/
theorem calculateOptimalBuyAmount_spec_witness :
    (0 : ℚ) ≤ 100 ∧ (0 : ℚ) < 1 / 10 ∧ (1 / 10 : ℚ) ≤ 1 / 5 ∧
      calculateOptimalBuyAmount 100 (1 / 5) (1 / 10) 60 (1 / 5) none false 100000 = 0 ∧
      ((0 : ℚ) < 100 * (1 - 0 / (1 / 10)) ∧
        1 / 20 ≤ calculateOptimalBuyAmount 100 0 (1 / 10) 60 (1 / 5) none false 100000 ∧
        calculateOptimalBuyAmount 100 0 (1 / 10) 60 (1 / 5) none false 100000 ≤
          max (1 / 20) ((100000 : ℚ) * (2 / 100))) :=
  ⟨by norm_num, by norm_num, by norm_num,
   (calculateOptimalBuyAmount_spec 100 (1 / 5) (1 / 10) 60 (1 / 5) none false 100000
      (by norm_num) (by norm_num)).1 (by norm_num),
   by
    have h := (calculateOptimalBuyAmount_spec 100 0 (1 / 10) 60 (1 / 5) none false 100000
      (by norm_num) (by norm_num)).2 (by norm_num)
    exact ⟨by norm_num, h.1, h.2⟩⟩

/-! ## Portfolio drawdown (`getPortfolioStatus`, `getHighWaterMark`,
`calculateDrawdown`) -/

/-- `PortfolioStatus` (`types.ts` / `tradingService.ts`): positions are the
kept `(address, amount, value)` entries. -/
structure PortfolioStatus where
  totalValue : ℚ
  positions : List (String × ℚ × ℚ)
  solBalance : ℚ
  drawdown : ℚ
deriving DecidableEq

/-- `getPortfolioStatus` (`tradingService.ts`), as a pure function of the
wallet SOL balance, the monitored tokens' `(address, balance, price)`
triples, and the cached `portfolio_high_water_mark` value (the source's
`getHighWaterMark` returns `cached || 0`).  Positions with non-positive
value are dropped; `totalValue` accumulates the kept values on top of the
SOL balance; the drawdown field is `(hwm − totalValue)/hwm` when the
cached mark is positive and `0` otherwise — the source does **not** clamp
it at 0 and does **not** write the mark back. -/
def getPortfolioStatus (solBalance : ℚ) (tokens : List (String × ℚ × ℚ))
    (hwmCache : Option ℚ) : PortfolioStatus :=
  let acc := tokens.foldl
    (fun (acc : ℚ × List (String × ℚ × ℚ)) tok =>
      let value := tok.2.1 * tok.2.2
      if 0 < value then (acc.1 + value, acc.2 ++ [(tok.1, tok.2.1, value)]) else acc)
    (solBalance, [])
  let highWaterMark := hwmCache.getD 0
  { totalValue := acc.1
    positions := acc.2
    solBalance := solBalance
    drawdown :=
      if 0 < highWaterMark then (highWaterMark - acc.1) / highWaterMark else 0 }

/-- `calculateDrawdown` (`tradingService.ts`) — a separate helper keyed on
`portfolio_hwm`: the mark defaults to the current total value when the
cache is missing or `0` (JS `||`); when `totalValue` exceeds the mark it
stores `totalValue` as the new mark and returns drawdown `0`, otherwise it
returns `(hwm − totalValue)/hwm` and leaves the cache unchanged.  Returns
`(drawdown, cache after the call)`. -/
def calculateDrawdown (totalValue : ℚ) (hwmCache : Option ℚ) : ℚ × Option ℚ :=
  let hwm :=
    match hwmCache with
    | some h => if h = 0 then totalValue else h
    | none => totalValue
  if hwm < totalValue then (0, some totalValue)
  else ((hwm - totalValue) / hwm, hwmCache)

/-- C7 (counterexample): the claim says every `PortfolioStatus` has
`drawdown ≥ 0`, clamped even when `totalValue` exceeds the stored mark; but
`getPortfolioStatus` does not clamp: with stored mark 100 and total value
150 the drawdown field is `−1/2 < 0`. -/
theorem getPortfolioStatus_drawdown_negative :
    (getPortfolioStatus 150 [] (some 100)).drawdown = -(1 / 2) ∧
      ¬ 0 ≤ (getPortfolioStatus 150 [] (some 100)).drawdown := by
  constructor <;> norm_num [getPortfolioStatus]

/-- C7 (amended): the `drawdown` field of `getPortfolioStatus` equals the
**unclamped** `(hwm − totalValue)/hwm` whenever the stored mark is positive
(and `0` otherwise), so it is negative exactly when `totalValue` exceeds a
positive stored mark, and `getPortfolioStatus` performs no update of the
mark; the separate `calculateDrawdown` helper is clamped — it returns a
non-negative drawdown for non-negative total value and stored mark — and
its stored mark never decreases, being set to `totalValue` exactly when
`totalValue` exceeds it. -/
theorem portfolio_drawdown_spec (solBalance : ℚ) (tokens : List (String × ℚ × ℚ))
    (c : Option ℚ) (totalValue : ℚ)
    (htv : 0 ≤ totalValue) (hc : ∀ h, c = some h → 0 ≤ h) :
    ((getPortfolioStatus solBalance tokens c).drawdown =
      if 0 < c.getD 0 then
        (c.getD 0 - (getPortfolioStatus solBalance tokens c).totalValue) / c.getD 0
      else 0) ∧
    0 ≤ (calculateDrawdown totalValue c).1 ∧
    (∀ h, c = some h → ∃ h', (calculateDrawdown totalValue c).2 = some h' ∧ h ≤ h') := by
  refine ⟨by rw [getPortfolioStatus], ?_, ?_⟩
  · cases c with
    | none =>
      simp only [calculateDrawdown]
      rw [if_neg (lt_irrefl totalValue), sub_self, zero_div]
    | some h =>
      have hh : 0 ≤ h := hc h rfl
      simp only [calculateDrawdown]
      split_ifs with h0 hlt hlt
      · exact le_refl 0
      · rw [sub_self, zero_div]
      · exact le_refl 0
      · exact div_nonneg (sub_nonneg.mpr (le_of_not_lt hlt)) hh
  · intro h hsome
    subst hsome
    simp only [calculateDrawdown]
    split_ifs with h0 hlt hlt
    · exact ⟨totalValue, rfl, by rw [h0]; exact htv⟩
    · exact ⟨h, rfl, le_refl h⟩
    · exact ⟨totalValue, rfl, le_of_lt hlt⟩
    · exact ⟨h, rfl, le_refl h⟩

/-- C7 witness: instantiates `portfolio_drawdown_spec` at stored mark 100
and total value 50. -/
theorem portfolio_drawdown_spec_witness :
    (0 : ℚ) ≤ 50 ∧
      ((getPortfolioStatus 50 [] (some 100)).drawdown =
        if 0 < (some (100 : ℚ)).getD 0 then
          ((some (100 : ℚ)).getD 0 - (getPortfolioStatus 50 [] (some 100)).totalValue) /
            (some (100 : ℚ)).getD 0
        else 0) ∧
      0 ≤ (calculateDrawdown 50 (some 100)).1 ∧
      (∀ h, some (100 : ℚ) = some h →
        ∃ h', (calculateDrawdown 50 (some 100)).2 = some h' ∧ h ≤ h') :=
  ⟨by norm_num,
   (portfolio_drawdown_spec 50 [] (some 100) 50 (by norm_num)
      (fun h hh => by simp at hh; simp [← hh])).1,
   (portfolio_drawdown_spec 50 [] (some 100) 50 (by norm_num)
      (fun h hh => by simp at hh; simp [← hh])).2.1,
   (portfolio_drawdown_spec 50 [] (some 100) 50 (by norm_num)
      (fun h hh => by simp at hh; simp [← hh])).2.2⟩

/-! ## Pending-sell counter (`handleSellSignal`) -/

/-- The `pendingSells` field: a JS object mapping token address to a
`BigInt` pending sell volume; a missing key is `none` (JS `delete` removes
the key). -/
def PendingSells := String → Option ℤ

/-- The increment done at the top of `handleSellSignal`'s inner `try`:
`pendingSells[t] = (pendingSells[t] || 0n) + amount`. -/
def recordPendingSell (m : PendingSells) (t : String) (amount : ℤ) : PendingSells :=
  fun s => if s = t then some ((m t).getD 0 + amount) else m s

/-- The `finally` block of `handleSellSignal`:
`pendingSells[t] = (pendingSells[t] || 0n) - amount`, then
`delete pendingSells[t]` when the result is `≤ 0`. -/
def releasePendingSell (m : PendingSells) (t : String) (amount : ℤ) : PendingSells :=
  fun s =>
    if s = t then
      let v := (m t).getD 0 - amount
      if v ≤ 0 then none else some v
    else m s

/-- The effect of one complete `handleSellSignal` invocation on
`pendingSells`.  `amount` is the result of `BigInt(signal.amount)`: `none`
models the parse throwing (caught by the outer `catch`, before the counter
is touched); otherwise the counter is incremented before the sell is
submitted and the `finally` block releases it on every exit path — quote
failure, missing wallet, sell success, sell failure or a thrown error all
pass through `finally`.  Nothing between the increment and the `finally`
touches the counter. -/
def handleSellSignalPending (m : PendingSells) (t : String) (amount : Option ℤ) :
    PendingSells :=
  match amount with
  | none => m
  | some a => releasePendingSell (recordPendingSell m t a) t a

/-- A `pendingSells` map is well-formed when every stored counter is
positive (the source deletes keys that reach `0` or below). -/
def PendingPositive (m : PendingSells) : Prop :=
  ∀ s v, m s = some v → 0 < v

/-- One complete invocation restores the map exactly (a missing key stays
missing, a present counter returns to its prior value). -/
theorem handleSellSignalPending_restores (m : PendingSells) (t : String)
    (a : ℤ) (hm : PendingPositive m) :
    ∀ s, handleSellSignalPending m t (some a) s = m s := by
  intro s
  by_cases hst : s = t
  · subst hst
    cases hmt : m s with
    | none =>
      simp [handleSellSignalPending, releasePendingSell, recordPendingSell, hmt]
    | some v =>
      have hv : 0 < v := hm s v hmt
      simp [handleSellSignalPending, releasePendingSell, recordPendingSell,
        hmt, not_le.mpr hv]
  · simp [handleSellSignalPending, releasePendingSell, recordPendingSell, hst]

/-- C8: each `handleSellSignal` invocation increments the pending-sells
counter for its token before submission and releases the same amount in
`finally` on every exit path, so (i) over any sequence of completed
invocations — successes, failures and thrown errors alike — the map
returns to exactly its prior state (keys that reach 0 being removed), and
(ii) for a non-negative sell amount the transient counter visible between
increment and release is the prior value plus the amount, hence never
below zero. -/
theorem handleSellSignal_pending_balanced (m : PendingSells) (t : String)
    (calls : List (Option ℤ)) (hm : PendingPositive m) :
    (∀ s, calls.foldl (fun mm c => handleSellSignalPending mm t c) m s = m s) ∧
    (∀ a : ℤ, 0 ≤ a →
      recordPendingSell m t a t = some ((m t).getD 0 + a) ∧
        0 ≤ (m t).getD 0 + a) := by
  constructor
  · have hstep : ∀ c, handleSellSignalPending m t c = m := by
      intro c
      cases c with
      | none => rfl
      | some a => funext s; exact handleSellSignalPending_restores m t a hm s
    induction calls with
    | nil => intro s; rfl
    | cons c rest ih =>
      intro s
      rw [List.foldl_cons, hstep c]
      exact ih s
  · intro a ha
    refine ⟨by simp [recordPendingSell], ?_⟩
    have h0 : 0 ≤ (m t).getD 0 := by
      cases hmt : m t with
      | none => simp
      | some v => simpa [hmt] using le_of_lt (hm t v hmt)
    linarith

/-- C8 witness: instantiates `handleSellSignal_pending_balanced` on a map
holding a pending amount of 5 for token "tok" and a sequence of three
invocations (amounts 3 and 4, then a failed parse): the counter for "tok"
is back at 5 afterwards and the transient value for amount 3 is 8 ≥ 0. -/
theorem handleSellSignal_pending_balanced_witness :
    ((([some 3, some 4, none] : List (Option ℤ)).foldl
        (fun mm c => handleSellSignalPending mm "tok" c)
        (fun s => if s = "tok" then some 5 else none)) "tok" =
      (fun s : String => if s = "tok" then some (5 : ℤ) else none) "tok") ∧
      recordPendingSell (fun s => if s = "tok" then some 5 else none) "tok" 3 "tok" =
        some (((fun s : String => if s = "tok" then some (5 : ℤ) else none) "tok").getD 0 + 3) ∧
      0 ≤ (((fun s : String => if s = "tok" then some (5 : ℤ) else none) "tok").getD 0 + 3 : ℤ) :=
  have hm : PendingPositive (fun s => if s = "tok" then some 5 else none) := by
    intro s v hv
    by_cases hs : s = "tok" <;> simp [hs] at hv
    omega
  ⟨(handleSellSignal_pending_balanced (fun s => if s = "tok" then some 5 else none)
      "tok" [some 3, some 4, none] hm).1 "tok",
   ((handleSellSignal_pending_balanced (fun s => if s = "tok" then some 5 else none)
      "tok" [some 3, some 4, none] hm).2 3 (by norm_num)).1,
   ((handleSellSignal_pending_balanced (fun s => if s = "tok" then some 5 else none)
      "tok" [some 3, some 4, none] hm).2 3 (by norm_num)).2⟩

/-! ## Volatility and the circuit breaker (`calculateVolatility`,
`checkCircuitBreaker`) -/

/-- The simple returns `(p[i] - p[i-1]) / p[i-1]` computed by the first
loop of `calculateVolatility`. -/
def calculateReturns (prices : List ℚ) : List ℚ :=
  List.zipWith (fun prev next => (next - prev) / prev) prices (prices.drop 1)

/-- The variance computed inside `calculateVolatility`: mean of the
returns, then the population variance `Σ (r - mean)² / n`. -/
def varianceOfReturns (prices : List ℚ) : ℚ :=
  let returns := calculateReturns prices
  let mean := returns.foldl (· + ·) 0 / (returns.length : ℚ)
  (returns.foldl (fun acc r => acc + (r - mean) ^ 2) 0) / (returns.length : ℚ)

/-- `calculateVolatility(prices)` (`tradingService.ts`): `0` for fewer than
two samples, otherwise `Math.sqrt` of the population variance of the
simple returns. -/
noncomputable def calculateVolatility (prices : List ℚ) : ℝ :=
  if prices.length < 2 then 0 else Real.sqrt (varianceOfReturns prices)

theorem foldl_add_sq_nonneg (l : List ℚ) (m : ℚ) :
    ∀ acc : ℚ, 0 ≤ acc → 0 ≤ l.foldl (fun a r => a + (r - m) ^ 2) acc := by
  induction l with
  | nil => intro acc hacc; exact hacc
  | cons x xs ih =>
    intro acc hacc
    exact ih _ (by positivity)

theorem varianceOfReturns_nonneg (prices : List ℚ) :
    0 ≤ varianceOfReturns prices := by
  rw [varianceOfReturns]
  exact div_nonneg (foldl_add_sq_nonneg _ _ 0 (le_refl 0)) (by positivity)

/-- Bridge between the source's real-valued comparison
`Math.sqrt(variance) > c` and the decidable rational comparison
`variance > c²` (for a non-negative threshold and at least two samples):
`Real.sqrt` is monotone on the non-negative variance. -/
theorem calculateVolatility_gt_iff (prices : List ℚ) (c : ℚ)
    (hc : 0 ≤ c) (hlen : 2 ≤ prices.length) :
    ((c : ℝ) < calculateVolatility prices ↔ c ^ 2 < varianceOfReturns prices) := by
  rw [calculateVolatility, if_neg (by omega)]
  rw [Real.lt_sqrt (by exact_mod_cast hc)]
  exact_mod_cast Iff.rfl

/-- The record written to the `trading_paused` cache key on a trigger:
the reason tag and the pause duration (`expiryTime − now`, one hour). -/
structure CircuitBreakerPause where
  reason : String
  pauseMs : ℕ
deriving DecidableEq

section
open Classical

/-- `checkCircuitBreaker` (`tradingService.ts`), as a function of the
reference asset's current price and price history: skip (`none`) when the
history has fewer than 24 samples; otherwise compute the 1h change against
`priceHistory[6]` and the volatility of the whole history, and pause
trading for one hour when `|priceChangePercent| > 15` or
`volatility > 0.6`, tagging the reason `extreme_price_movement` in the
first case and `high_volatility` otherwise. -/
noncomputable def checkCircuitBreaker (currentPrice : ℚ) (priceHistory : List ℚ) :
    Option CircuitBreakerPause :=
  if priceHistory.length < 24 then none
  else
    let priorPrice := priceHistory.getD 6 0
    let priceChangePercent := (currentPrice - priorPrice) / priorPrice * 100
    let volatility := calculateVolatility priceHistory
    if 15 < |priceChangePercent| ∨ (3 / 5 : ℝ) < volatility then
      some { reason :=
               if 15 < |priceChangePercent| then "extreme_price_movement"
               else "high_volatility"
             pauseMs := 3600000 }
    else none

end

/-- C6: `checkCircuitBreaker` takes no action when the price history has
fewer than 24 samples; with at least 24 samples it pauses trading for one
hour if and only if `|priceChangePercent| > 15` or the volatility exceeds
`0.6` (equivalently, the variance of returns exceeds `0.36 = 9/25`),
recording reason `extreme_price_movement` when `|priceChangePercent| > 15`
and `high_volatility` otherwise. -/
theorem checkCircuitBreaker_spec (currentPrice : ℚ) (hist : List ℚ) :
    (hist.length < 24 → checkCircuitBreaker currentPrice hist = none) ∧
    (24 ≤ hist.length →
      checkCircuitBreaker currentPrice hist =
        if 15 < |(currentPrice - hist.getD 6 0) / hist.getD 6 0 * 100| ∨
            9 / 25 < varianceOfReturns hist then
          some { reason :=
                   if 15 < |(currentPrice - hist.getD 6 0) / hist.getD 6 0 * 100| then
                     "extreme_price_movement"
                   else "high_volatility"
                 pauseMs := 3600000 }
        else none) := by
  constructor
  · intro h
    rw [checkCircuitBreaker, if_pos h]
  · intro h
    rw [checkCircuitBreaker.eq_def, if_neg (not_lt.mpr h)]
    have hvol : ((3 / 5 : ℚ) : ℝ) < calculateVolatility hist ↔
        (3 / 5 : ℚ) ^ 2 < varianceOfReturns hist :=
      calculateVolatility_gt_iff hist (3 / 5) (by norm_num) (by omega)
    have hvol' : ((3 / 5 : ℝ) < calculateVolatility hist) ↔
        9 / 25 < varianceOfReturns hist := by
      have hcast : ((3 / 5 : ℚ) : ℝ) = (3 / 5 : ℝ) := by norm_num
      rw [← hcast, hvol, show ((3 / 5 : ℚ)) ^ 2 = 9 / 25 from by norm_num]
    rw [if_congr (or_congr Iff.rfl hvol') rfl rfl]

/-- C6 witness: instantiates `checkCircuitBreaker_spec` on the three
scenarios of the claim — a 16% move on a flat (zero-volatility) history
pauses with reason `extreme_price_movement`; a 10% move on a violently
alternating history (variance ≈ 3.5 > 0.36) pauses with reason
`high_volatility`; a 10% move on a flat history does not trigger; and on a
6-sample history the check is skipped. -/
theorem checkCircuitBreaker_spec_witness :
    checkCircuitBreaker 116 (List.replicate 24 100) =
        some { reason := "extreme_price_movement", pauseMs := 3600000 } ∧
      checkCircuitBreaker (11 / 10)
          [1, 4, 1, 4, 1, 4, 1, 4, 1, 4, 1, 4, 1, 4, 1, 4, 1, 4, 1, 4, 1, 4, 1, 4] =
        some { reason := "high_volatility", pauseMs := 3600000 } ∧
      checkCircuitBreaker 110 (List.replicate 24 100) = none ∧
      checkCircuitBreaker 116 (List.replicate 6 100) = none := by
  refine ⟨?_, ?_, ?_, ?_⟩
  · refine ((checkCircuitBreaker_spec 116 (List.replicate 24 100)).2 (by simp)).trans ?_
    norm_num [varianceOfReturns, calculateReturns, List.replicate, List.getD]
  · refine ((checkCircuitBreaker_spec (11 / 10)
      [1, 4, 1, 4, 1, 4, 1, 4, 1, 4, 1, 4, 1, 4, 1, 4, 1, 4, 1, 4, 1, 4, 1, 4]).2
      (by simp)).trans ?_
    norm_num [varianceOfReturns, calculateReturns, List.getD]
  · refine ((checkCircuitBreaker_spec 110 (List.replicate 24 100)).2 (by simp)).trans ?_
    norm_num [varianceOfReturns, calculateReturns, List.replicate, List.getD]
  · exact (checkCircuitBreaker_spec 116 (List.replicate 6 100)).1 (by simp)

/-! ## Dynamic slippage (`calculateDynamicSlippage`) -/

/-- `slippageSettings` subtree of `TradingConfig` (`types.ts`): percentages
and the two adaptive multipliers. -/
structure SlippageSettings where
  baseSlippage : ℚ
  maxSlippage : ℚ
  liquidityMultiplier : ℚ
  volumeMultiplier : ℚ
deriving DecidableEq

/-- The token market data returned by `getTokenPrice` and consumed by
`calculateDynamicSlippage`. -/
structure TokenPriceData where
  price : ℚ
  marketCap : ℚ
  liquidity : ℚ
  volume24h : ℚ
deriving DecidableEq

/-- The liquidity-adjustment stage of `calculateDynamicSlippage`
(`tradingService.ts`): starting from `baseSlippage`, when the trade is more
than 0.1% of liquidity add
`liquidityPercentage ** 1.5 × liquidityMultiplier × 0.01` (the exponent
`** 1.5` is real exponentiation, hence the `ℝ` codomain). -/
noncomputable def slippageAfterLiquidity (s : SlippageSettings)
    (liquidityPercentage : ℚ) : ℝ :=
  if 1 / 10 < liquidityPercentage then
    (s.baseSlippage : ℝ) +
      ((liquidityPercentage : ℝ) ^ ((3 : ℝ) / 2) * (s.liquidityMultiplier : ℝ)) * (1 / 100)
  else (s.baseSlippage : ℝ)

/-- The volume-adjustment stage of `calculateDynamicSlippage`: when
volume/market-cap exceeds 0.05, subtract
`min(volumeToMcapRatio × 5, 0.5) × volumeMultiplier`, floored at
`baseSlippage × 0.5`. -/
noncomputable def slippageAfterVolume (s : SlippageSettings) (slippage : ℝ)
    (volumeToMcapRatio : ℚ) : ℝ :=
  if 1 / 20 < volumeToMcapRatio then
    max (slippage - ((min (volumeToMcapRatio * 5) (1 / 2) * s.volumeMultiplier : ℚ) : ℝ))
      ((s.baseSlippage : ℝ) * (1 / 2))
  else slippage

/-- The special-token stage of `calculateDynamicSlippage`: add the
per-token adjustment when `hasSpecialSlippageRequirement` holds (`none`
models a token without special requirements). -/
noncomputable def slippageAfterSpecial (slippage : ℝ)
    (specialAdjustment : Option ℚ) : ℝ :=
  match specialAdjustment with
  | some adj => slippage + (adj : ℝ)
  | none => slippage

/-- The slippage percentage computed by `calculateDynamicSlippage` before
basis-point conversion: the three adjustment stages applied to the
liquidity percentage `tradeValue / liquidity × 100` (with `tradeValue`
converted through the price on sells) and the volume/market-cap ratio,
finally capped at `maxSlippage`. -/
noncomputable def dynamicSlippagePercent (s : SlippageSettings) (d : TokenPriceData)
    (tradeAmount : ℚ) (isSell : Bool) (specialAdjustment : Option ℚ) : ℝ :=
  let tradeValue : ℚ := if isSell then tradeAmount * d.price else tradeAmount
  let liquidityPercentage : ℚ := tradeValue / d.liquidity * 100
  let volumeToMcapRatio : ℚ := d.volume24h / d.marketCap
  min
    (slippageAfterSpecial
      (slippageAfterVolume s (slippageAfterLiquidity s liquidityPercentage)
        volumeToMcapRatio)
      specialAdjustment)
    (s.maxSlippage : ℝ)

/-- `calculateDynamicSlippage`'s returned value: the final slippage
percentage converted to basis points via `Math.floor(final × 100)`. -/
noncomputable def calculateDynamicSlippage (s : SlippageSettings) (d : TokenPriceData)
    (tradeAmount : ℚ) (isSell : Bool) (specialAdjustment : Option ℚ) : ℤ :=
  ⌊dynamicSlippagePercent s d tradeAmount isSell specialAdjustment * 100⌋

theorem slippageAfterLiquidity_ge (s : SlippageSettings) (lp : ℚ)
    (hlm : 0 ≤ s.liquidityMultiplier) :
    (s.baseSlippage : ℝ) ≤ slippageAfterLiquidity s lp := by
  rw [slippageAfterLiquidity]
  split_ifs with h
  · have hlp0 : (0 : ℝ) ≤ (lp : ℝ) := by
      have : (0 : ℚ) ≤ lp := le_of_lt (lt_trans (by norm_num) h)
      exact_mod_cast this
    have hpow : (0 : ℝ) ≤ (lp : ℝ) ^ ((3 : ℝ) / 2) := Real.rpow_nonneg hlp0 _
    have hlm2 : (0 : ℝ) ≤ (s.liquidityMultiplier : ℝ) := by exact_mod_cast hlm
    nlinarith
  · exact le_refl _

theorem slippageAfterVolume_ge (s : SlippageSettings) (slippage : ℝ) (ratio : ℚ)
    (hs : (s.baseSlippage : ℝ) * (1 / 2) ≤ slippage) :
    (s.baseSlippage : ℝ) * (1 / 2) ≤ slippageAfterVolume s slippage ratio := by
  rw [slippageAfterVolume]
  split_ifs with h
  · exact le_max_right _ _
  · exact hs

theorem slippageAfterSpecial_ge (slippage : ℝ) (o : Option ℚ) (c : ℝ)
    (hs : c ≤ slippage) (ho : ∀ adj, o = some adj → 0 ≤ adj) :
    c ≤ slippageAfterSpecial slippage o := by
  cases o with
  | none => exact hs
  | some adj =>
    have : (0 : ℝ) ≤ (adj : ℝ) := by exact_mod_cast ho adj rfl
    rw [slippageAfterSpecial]
    linarith

/-- C5: for every token-market-data input (any liquidity percentage,
volume/market-cap ratio, and non-negative special adjustment), given a
non-negative base slippage no larger than the maximum and a non-negative
liquidity multiplier, the slippage percentage computed before basis-point
conversion lies within `[baseSlippage × 0.5, maxSlippage]`, and the
returned value is `floor(finalSlippage × 100)` basis points. -/
theorem calculateDynamicSlippage_bounds (s : SlippageSettings) (d : TokenPriceData)
    (tradeAmount : ℚ) (isSell : Bool) (specialAdjustment : Option ℚ)
    (hbase : 0 ≤ s.baseSlippage) (hbm : s.baseSlippage ≤ s.maxSlippage)
    (hlm : 0 ≤ s.liquidityMultiplier)
    (hspec : ∀ adj, specialAdjustment = some adj → 0 ≤ adj) :
    (s.baseSlippage : ℝ) * (1 / 2) ≤
        dynamicSlippagePercent s d tradeAmount isSell specialAdjustment ∧
      dynamicSlippagePercent s d tradeAmount isSell specialAdjustment ≤
        (s.maxSlippage : ℝ) ∧
      calculateDynamicSlippage s d tradeAmount isSell specialAdjustment =
        ⌊dynamicSlippagePercent s d tradeAmount isSell specialAdjustment * 100⌋ := by
  have hbase2 : (0 : ℝ) ≤ (s.baseSlippage : ℝ) := by exact_mod_cast hbase
  have hhalf : (s.baseSlippage : ℝ) * (1 / 2) ≤ (s.baseSlippage : ℝ) := by linarith
  have hb2m : (s.baseSlippage : ℝ) * (1 / 2) ≤ (s.maxSlippage : ℝ) := by
    have : (s.baseSlippage : ℝ) ≤ (s.maxSlippage : ℝ) := by exact_mod_cast hbm
    linarith
  refine ⟨?_, min_le_right _ _, rfl⟩
  rw [dynamicSlippagePercent]
  refine le_min ?_ hb2m
  exact slippageAfterSpecial_ge _ _ _
    (slippageAfterVolume_ge _ _ _
      (le_trans hhalf (slippageAfterLiquidity_ge s _ hlm)))
    hspec

/-- C5 witness: instantiates `calculateDynamicSlippage_bounds` at the
engine's hard-coded settings (base 0.5, max 1.0, multipliers 1.0) on a
small trade in a deep market with no special adjustment. -/
theorem calculateDynamicSlippage_bounds_witness :
    (0 : ℚ) ≤ 1 / 2 ∧ (1 / 2 : ℚ) ≤ 1 ∧
      (((1 / 2 : ℚ) : ℝ) * (1 / 2) ≤
          dynamicSlippagePercent ⟨1 / 2, 1, 1, 1⟩ ⟨1, 1000000, 1000000, 10000⟩ 1 false none ∧
        dynamicSlippagePercent ⟨1 / 2, 1, 1, 1⟩ ⟨1, 1000000, 1000000, 10000⟩ 1 false none ≤
          ((1 : ℚ) : ℝ) ∧
        calculateDynamicSlippage ⟨1 / 2, 1, 1, 1⟩ ⟨1, 1000000, 1000000, 10000⟩ 1 false none =
          ⌊dynamicSlippagePercent ⟨1 / 2, 1, 1, 1⟩ ⟨1, 1000000, 1000000, 10000⟩ 1 false none *
              100⌋) :=
  ⟨by norm_num, by norm_num,
   calculateDynamicSlippage_bounds ⟨1 / 2, 1, 1, 1⟩ ⟨1, 1000000, 1000000, 10000⟩ 1 false none
     (by norm_num) (by norm_num) (by norm_num) (fun adj h => by cases h)⟩

/-- C9 (counterexample): the claim says `calculateEMA` returns the simple
average of the last available window when the series is shorter than the
period; on the series `[1, 3]` with period `5` the source returns the last
element `3`, not the average `2`. -/
theorem calculateEMA_short_series_not_average :
    calculateEMA [1, 3] 5 = 3 ∧ ¬ calculateEMA [1, 3] 5 = ((1 : ℚ) + 3) / 2 := by
  constructor
  · norm_num [calculateEMA]
  · norm_num [calculateEMA]

/-- C9 (amended): for a non-empty series, `calculateEMA` returns the **last
element** (not an average) when the series is shorter than the period, and
otherwise equals the closed-form EMA fold with multiplier `2/(period+1)`
seeded with the simple average of the first `period` elements. -/
theorem calculateEMA_spec (prices : List ℚ) (period : ℕ) (hne : prices ≠ []) :
    (prices.length < period → calculateEMA prices period = prices.getLast hne) ∧
    (period ≤ prices.length →
      calculateEMA prices period =
        (prices.drop period).foldl
          (fun ema p => (p - ema) * (2 / ((period : ℚ) + 1)) + ema)
          ((prices.take period).sum / (period : ℚ))) := by
  constructor
  · intro h
    rw [calculateEMA, if_pos h, List.getLastD_eq_getLast?,
      List.getLast?_eq_getLast_of_ne_nil hne]
    rfl
  · intro h
    rw [calculateEMA, if_neg (by omega), List.sum_eq_foldl]

/-- C9 witness: instantiates `calculateEMA_spec` on both branches at
concrete inputs, evaluating the definitions there. -/
theorem calculateEMA_spec_witness :
    ([1, 3] : List ℚ) ≠ [] ∧ calculateEMA [1, 3] 5 = ([1, 3] : List ℚ).getLast (by simp) ∧
      calculateEMA [1, 2, 3] 2 =
        (([1, 2, 3] : List ℚ).drop 2).foldl
          (fun ema p => (p - ema) * (2 / ((2 : ℚ) + 1)) + ema)
          ((([1, 2, 3] : List ℚ).take 2).sum / (2 : ℚ)) :=
  ⟨by simp,
   (calculateEMA_spec [1, 3] 5 (by simp)).1 (by simp),
   (calculateEMA_spec [1, 2, 3] 2 (by simp)).2 (by simp)⟩

/-- C10: the final division `rs = avgGain / avgLoss` in `calculateRSI` is
unguarded: on a monotonically non-decreasing series of length `period + 1`
(so the length guard is passed), `avgLoss` is `0` at the division point and
the embedding's error branch (`none`) is reached — both on a constant
series and on a strictly increasing one. -/
theorem calculateRSI_division_by_zero_reachable :
    14 + 1 ≤ (List.replicate 15 (1 : ℚ)).length ∧
      calculateRSI (List.replicate 15 1) 14 = none ∧
      calculateRSI [1, 2, 3, 4, 5, 6, 7, 8, 9, 10, 11, 12, 13, 14, 15] 14 = none := by
  refine ⟨by simp, ?_, ?_⟩
  · norm_num [calculateRSI, priceChanges, rsiStep, List.replicate]
  · norm_num [calculateRSI, priceChanges, rsiStep]

end DegenTrader
